import Mathlib

/-!
Verification of the NexusDocs Scan & Proposal Generation Engine.

This file gives a shallow embedding, in Lean 4, of the algorithmic core of
the repository: the path/glob utilities, the budgeted content-fetch loop,
the deterministic document generators, the proposal diff builder, the LLM
digest retry logic and the throttled progress sink, all translated from
`lib/scanner` (repository scanning + doc generation helpers) and the cron
scan route (`/api/cron/scans`).

Modelling conventions:
* JavaScript strings are modelled as Lean `String` (or `List Char` for
  content processed character-by-character); `.length`, `.slice(0, n)`,
  `.trim()`, `.toLowerCase()`, `.includes`, `.endsWith` are modelled on the
  character list (`data`) of the string.  JS string lengths count UTF-16
  units; for the properties below only character counts matter.
* `await`-ed external calls (Git-hosting API, the LLM client, the
  persistence layer) are passed in as explicit function arguments or as
  already-resolved `Except` values; a thrown JS exception is an `Except.error`.
* JS numbers are modelled as `Nat`/`Int` where the source only ever holds
  integers (character budgets, token caps, timestamps), and as `ℚ` for the
  progress percent, which may arrive fractional and is rounded.
-/

namespace NexusDocs

/-! ## JS string helpers -/

/-- Model of `String(p || "").replaceAll("\\", "/")` on the character list:
every backslash becomes a forward slash. -/
def toPosixChars (l : List Char) : List Char :=
  l.map (fun c => if c = '\\' then '/' else c)

/-- Model of JS `String.prototype.trim` on a character list: drop leading and
trailing whitespace. -/
def trimChars (l : List Char) : List Char :=
  ((l.dropWhile Char.isWhitespace).reverse.dropWhile Char.isWhitespace).reverse

/-- JS `trim` on a `String`. -/
def trimString (s : String) : String :=
  String.mk (trimChars s.data)

/-- JS `toLowerCase` (per-character lowering). -/
def jsToLower (s : String) : String :=
  String.mk (s.data.map Char.toLower)

/-- Does `pat` occur as a contiguous run inside `l`? -/
def containsRun (pat : List Char) : List Char → Bool
  | [] => pat.isEmpty
  | x :: xs => pat.isPrefixOf (x :: xs) || containsRun pat xs

/-- JS `hay.includes(needle)`. -/
def jsIncludes (needle hay : String) : Bool :=
  containsRun needle.data hay.data

/-- JS `s.endsWith(suffix)`. -/
def jsEndsWith (s suffix : String) : Bool :=
  suffix.data.reverse.isPrefixOf s.data.reverse

/-- JS `a || b` for strings (empty string is falsy). -/
def jsOr (a b : String) : String :=
  if a = "" then b else a

/-- JS `x ? String(x) : null` for an optional string (empty string is falsy). -/
def jsStringOrNull : Option String → Option String
  | none => none
  | some s => if s = "" then none else some s

/-- JS `String.prototype.slice(0, n)` (first `n` characters). -/
def sliceChars (s : String) (n : Nat) : String :=
  String.mk (s.data.take n)

/-! ## Glob matcher (`globToRegExp` / `anyGlobMatches`)

`globToRegExp` translates a glob into a regular expression built from five
kinds of pieces: `(?:.*/)?` for a leading `**/`, `.*` for a bare `**`,
`[^/]*` for `*`, `[^/]` for `?`, and (regex-escaped) literal characters.
We embed the translation as a token list and give the token list its
regular-expression matching semantics directly (anchored on both ends, as
the source anchors with `^...$`).  The `RegExp` is built with no flags, so
`.` excludes the ECMAScript line terminators while the negated classes
`[^/]` do match them. -/

/-- One compiled piece of a glob pattern, mirroring the pieces of regex text
`globToRegExp` emits. -/
inductive GlobTok where
  /-- `**/` → `(?:.*/)?`: zero or more whole path segments (no line
  terminators, since `.` excludes them). -/
  | doubleStarSlash : GlobTok
  /-- bare `**` → `.*`: any characters including separators, except line
  terminators. -/
  | doubleStar : GlobTok
  /-- `*` → `[^/]*`: a run of non-separator characters. -/
  | starSegment : GlobTok
  /-- `?` → `[^/]`: exactly one non-separator character. -/
  | oneChar : GlobTok
  /-- a literal (regex-escaped) character. -/
  | lit (c : Char) : GlobTok
deriving DecidableEq

/-- The tokenization loop of `globToRegExp`: scan the pattern, recognizing
`**/`, `**`, `*`, `?` in that order, everything else literal. -/
def globTokens : List Char → List GlobTok
  | '*' :: '*' :: '/' :: rest => .doubleStarSlash :: globTokens rest
  | '*' :: '*' :: rest => .doubleStar :: globTokens rest
  | '*' :: rest => .starSegment :: globTokens rest
  | '?' :: rest => .oneChar :: globTokens rest
  | c :: rest => .lit c :: globTokens rest
  | [] => []

/-- `[^/]*k`: try the continuation on every suffix reachable by consuming
non-separator characters (including consuming none).  A negated character
class also matches line terminators, so only `/` is excluded. -/
def starRun (k : List Char → Bool) : List Char → Bool
  | [] => k []
  | x :: xs => k (x :: xs) || (!(x = '/') && starRun k xs)

/-- The characters a flagless JS regex `.` does not match: the ECMAScript
line terminators LF, CR, U+2028 and U+2029. -/
def isLineTerminator (c : Char) : Bool :=
  c = '\n' ∨ c = '\r' ∨ c = '\u2028' ∨ c = '\u2029'

/-- `.*k` (the source's `RegExp` carries no flags, so `.` excludes line
terminators): try the continuation on every suffix reachable by consuming
non-line-terminator characters. -/
def anySuffix (k : List Char → Bool) : List Char → Bool
  | [] => k []
  | x :: xs => k (x :: xs) || (!(isLineTerminator x) && anySuffix k xs)

/-- `.*/k`: try the continuation right after a separator reachable by
consuming non-line-terminator characters (the `.*` may itself cross
separators, but no line terminator). -/
def anyAfterSlash (k : List Char → Bool) : List Char → Bool
  | [] => false
  | x :: xs => ((x = '/') && k xs) || (!(isLineTerminator x) && anyAfterSlash k xs)

/-- Anchored matching semantics of a compiled glob token list, exactly the
semantics of the regex text `globToRegExp` builds. -/
def globMatch : List GlobTok → List Char → Bool
  | [], s => s.isEmpty
  | .lit _ :: _, [] => false
  | .lit c :: ts, x :: xs => (c = x) && globMatch ts xs
  | .oneChar :: _, [] => false
  | .oneChar :: ts, x :: xs => (!(x = '/')) && globMatch ts xs
  | .starSegment :: ts, s => starRun (globMatch ts) s
  | .doubleStar :: ts, s => anySuffix (globMatch ts) s
  | .doubleStarSlash :: ts, s => globMatch ts s || anyAfterSlash (globMatch ts) s

/-- `globToRegExp(pattern).test(path)`: the pattern is posix-normalized and
trimmed before translation (the source's `toPosixPath(pattern).trim()`). -/
def globStringMatches (pattern path : String) : Bool :=
  globMatch (globTokens (trimChars (toPosixChars pattern.data))) path.data

/-- `anyGlobMatches(patterns, path)`: the path is posix-normalized; an empty
pattern list matches nothing.  (The source's `try/catch` around regex
compilation never fires in this model: the translation is total.) -/
def anyGlobMatches (patterns : List String) (path : String) : Bool :=
  patterns.any (fun pat => globStringMatches pat (String.mk (toPosixChars path.data)))

/-! ## `inferOutputPathFromGlob` -/

/-- `pattern.endsWith("/") ? pattern.slice(0, -1) : pattern` on char lists. -/
def dropTrailingSlash (l : List Char) : List Char :=
  if l.getLast? = some '/' then l.dropLast else l

/-- `inferOutputPathFromGlob(globPattern, fallbackDir, fallbackFile)`:
derive a concrete output file path from a possibly-globbed pattern.  The
pattern is posix-normalized and trimmed first; `cutAt` is the least index of
a `*` or `?` (the JS computes it as the minimum of the two `indexOf`
results that are nonnegative). -/
def inferOutputPathFromGlob (globPattern fallbackDir fallbackFile : String) : String :=
  let pat := trimChars (toPosixChars globPattern.data)
  if pat = [] then fallbackDir ++ "/" ++ fallbackFile
  else
    match List.findIdx? (fun c => c = '*' || c = '?') pat with
    | none =>
      if jsEndsWith (jsToLower (String.mk pat)) ".md" then String.mk pat
      else String.mk (dropTrailingSlash pat) ++ "/" ++ fallbackFile
    | some cutAt =>
      let dir := dropTrailingSlash (pat.take cutAt)
      if dir = [] then fallbackDir ++ "/" ++ fallbackFile
      else String.mk dir ++ "/" ++ fallbackFile

/-! ## Data model -/

/-- An API route detected by the repository summarizer. -/
structure ApiRouteR where
  apiPath : String
  methods : List String
deriving DecidableEq

/-- One top-level directory entry of the repository summary. -/
structure TopDirR where
  name : String
  count : Nat
deriving DecidableEq

/-- `buildRepoSummary`'s output shape (`repo`, `ref`, `totalFiles`,
`topLevel`). -/
structure RepoSummaryR where
  repo : String
  ref : String
  totalFiles : Nat
  topLevel : List TopDirR
deriving DecidableEq

/-- The fields of a parsed `package.json` the generators read.  Dependency
maps are modelled by their key lists (`Object.keys`); absent fields are `[]`
or `none`, matching the JS optional chaining. -/
structure PackageJson where
  name : Option String
  description : Option String
  dependencies : List String
  devDependencies : List String
  scripts : List (String × String)
  enginesNode : Option String
  packageManager : Option String
deriving DecidableEq

/-- An enabled doc target after `pickDocTargets` normalization. -/
structure DocTargetR where
  type : String
  paths : List String
  enabled : Bool
deriving DecidableEq

/-! ## Content fetch loop of `scanRepoAndGenerateDocProposals`

The loop walks the ranked `toRead` list keeping a `remaining` character
budget: files without a blob sha are skipped (`continue`), the loop breaks
once the budget is exhausted (`remaining <= 0`), and each fetched text is
truncated to the remaining budget before being stored.  A file is modelled
as `Option BlobFile`: `none` for an entry without a sha, `some f` carrying
the path and the text the blob fetch would decode. -/

/-- A candidate file together with the text its blob would decode to. -/
structure BlobFile where
  path : String
  text : List Char
deriving DecidableEq

/-- The content-fetch loop: returns the `(path, trimmed text)` pairs stored
into `contentsByPath`, in fetch order. -/
def fetchLoop (budget : Nat) : List (Option BlobFile) → List (String × List Char)
  | [] => []
  | none :: rest => fetchLoop budget rest
  | some f :: rest =>
    if budget = 0 then []
    else
      let trimmed := if f.text.length > budget then f.text.take budget else f.text
      (f.path, trimmed) :: fetchLoop (budget - trimmed.length) rest

/-- `candidates.slice(0, maxFilesToRead)`: the read set selected for
fetching. -/
def toReadOf (candidates : List (Option BlobFile)) (maxFilesToRead : Nat) :
    List (Option BlobFile) :=
  candidates.take maxFilesToRead

/-- The `filesScanned` field of the scan result: `toRead.length`. -/
def filesScannedOf (candidates : List (Option BlobFile)) (maxFilesToRead : Nat) : Nat :=
  (toReadOf candidates maxFilesToRead).length

/-! ## `fetchRepoFileIfExists` and the proposal diff builder -/

/-- The relevant fields of a GitHub contents-API response (`content` is the
base64 payload, absent on errors or non-files; `sha` may be absent). -/
structure ContentsResponse where
  content : Option String
  sha : Option String
deriving DecidableEq

/-- The record `fetchRepoFileIfExists` resolves with.  On a request error
that does not read as "not found" the source attaches the error to the
record (`{ exists: false, content: null, sha: null, error }`). -/
structure FetchResultR where
  exists_ : Bool
  content : Option String
  sha : Option String
  error : Option String := none
deriving DecidableEq

/-- `fetchRepoFileIfExists({gitProvider, ...})`.  The awaited hosting-API
request is passed in as its resolved outcome `response` (an `Except.error`
models a thrown exception), and base64 decoding (after stripping newlines)
as `decode`.  `getGitRequest` throws for a non-GitHub provider before the
`try` block, so that case is an `Except.error` of the whole call; every
other outcome resolves to a record. -/
def fetchRepoFileIfExists (gitProvider : String)
    (response : Except String ContentsResponse) (decode : String → String) :
    Except String FetchResultR :=
  if gitProvider ≠ "" ∧ gitProvider ≠ "github" then
    .error ("Unsupported git provider: " ++ gitProvider)
  else
    match response with
    | .error err =>
      if jsIncludes "not found" (jsToLower err) then
        .ok { exists_ := false, content := none, sha := none }
      else
        .ok { exists_ := false, content := none, sha := none, error := some err }
    | .ok data =>
      match data.content with
      | none => .ok { exists_ := false, content := none, sha := none }
      | some c =>
        if c = "" then .ok { exists_ := false, content := none, sha := none }
        else .ok { exists_ := true, content := some (decode c), sha := jsStringOrNull data.sha }

/-- In the document-generation loop of `scanRepoAndGenerateDocProposals`,
the existing markdown at the output path: empty when the file does not
exist, and the surrounding `try/catch` turns any thrown fetch error into
the empty string too. -/
def existingMarkdownOf (fetchOutcome : Except String FetchResultR) : String :=
  match fetchOutcome with
  | .error _ => ""
  | .ok r => if r.exists_ then r.content.getD "" else ""

/-- One entry of `scanResult.proposals` (target output path plus generated
markdown; the markdown is `null` only if generation produced nothing). -/
structure ProposalItem where
  outputPath : String
  markdown : Option String
deriving DecidableEq

/-- A `ProposalFile` row as built by the cron scan route. -/
structure ProposalFile where
  filePath : String
  operation : String
  originalContent : Option String
  proposedContent : String
  unifiedDiff : String
deriving DecidableEq

/-- `existing.exists ? existing.content ?? "" : ""`. -/
def beforeContent (e : FetchResultR) : String :=
  if e.exists_ then e.content.getD "" else ""

/-- The proposal-file loop of `runScanForProject` in the cron scan route:
for each proposal, fetch the existing file, and only when `before !== after`
push a `ProposalFile` with operation `update` (file exists) or `create`
(file missing) and a unified diff labelled with the output path on both
sides.  The per-path fetch result is passed in as `fetch`, the external
`createTwoFilesPatch` as `diff`. -/
def buildProposalFiles (fetch : String → FetchResultR)
    (diff : String → String → String → String) :
    List ProposalItem → List ProposalFile
  | [] => []
  | item :: rest =>
    let existing := fetch item.outputPath
    let before := beforeContent existing
    let after := item.markdown.getD ""
    if before ≠ after then
      { filePath := item.outputPath,
        operation := if existing.exists_ then "update" else "create",
        originalContent := if existing.exists_ then some before else none,
        proposedContent := after,
        unifiedDiff := diff item.outputPath before after } :: buildProposalFiles fetch diff rest
    else buildProposalFiles fetch diff rest

/-! ## Manifest-derived signals (`buildDependencySet`, `inferTechStack`,
`inferEnvVars`) -/

/-- JS `s.startsWith(pre)`. -/
def jsStartsWith (pre s : String) : Bool :=
  pre.data.isPrefixOf s.data

/-- `packageJson?.dependencies ? Object.keys(...) : []`. -/
def pkgDependencies : Option PackageJson → List String
  | none => []
  | some p => p.dependencies

/-- `packageJson?.devDependencies ? Object.keys(...) : []`. -/
def pkgDevDependencies : Option PackageJson → List String
  | none => []
  | some p => p.devDependencies

/-- `packageJson?.scripts ? Object.entries(...) : []`. -/
def pkgScripts : Option PackageJson → List (String × String)
  | none => []
  | some p => p.scripts

/-- `packageJson?.name` as a possibly-empty string (`undefined` is falsy
wherever this is used in a `||` chain, like the empty string). -/
def pkgName (pkg : Option PackageJson) : String :=
  ((pkg.bind fun p => p.name).getD "")

/-- `packageJson?.description`, in the same falsy-as-empty convention. -/
def pkgDescription (pkg : Option PackageJson) : String :=
  ((pkg.bind fun p => p.description).getD "")

/-- `packageJson?.engines?.node`, falsy-as-empty. -/
def pkgEnginesNode (pkg : Option PackageJson) : String :=
  ((pkg.bind fun p => p.enginesNode).getD "")

/-- `packageJson?.packageManager`, falsy-as-empty. -/
def pkgPackageManager (pkg : Option PackageJson) : String :=
  ((pkg.bind fun p => p.packageManager).getD "")

/-- `buildDependencySet`: the lowered keys of `dependencies` and
`devDependencies` (the JS builds a `Set`; list membership models `has`). -/
def buildDependencySet (pkg : Option PackageJson) : List String :=
  (pkgDependencies pkg ++ pkgDevDependencies pkg).map (fun d => jsToLower (jsOr d ""))

/-- `buildDependencySet(pkg).has(d)`. -/
def depsHas (pkg : Option PackageJson) (d : String) : Bool :=
  (buildDependencySet pkg).contains d

/-- `inferTechStack(packageJson)`. -/
def inferTechStack (pkg : Option PackageJson) : List String :=
  (if depsHas pkg "next" then ["Next.js"] else [])
  ++ (if depsHas pkg "react" then ["React"] else [])
  ++ (if depsHas pkg "typescript" then ["TypeScript"] else [])
  ++ (if depsHas pkg "tailwindcss" then ["Tailwind CSS"] else [])
  ++ (if depsHas pkg "@tanstack/react-query" || depsHas pkg "react-query" then ["TanStack Query"] else [])
  ++ (if depsHas pkg "react-hook-form" then ["react-hook-form"] else [])
  ++ (if depsHas pkg "zod" then ["zod"] else [])
  ++ (if depsHas pkg "prisma" || depsHas pkg "@prisma/client" then ["Prisma"] else [])
  ++ (if depsHas pkg "next-auth" || depsHas pkg "@auth/core" then ["NextAuth"] else [])
  ++ (if depsHas pkg "openai" then ["OpenAI SDK"] else [])

/-- `inferEnvVars(packageJson)`. -/
def inferEnvVars (pkg : Option PackageJson) : List String :=
  (if depsHas pkg "prisma" || depsHas pkg "@prisma/client" then ["DATABASE_URL"] else [])
  ++ (if depsHas pkg "next-auth" || depsHas pkg "@auth/core" then ["AUTH_SECRET"] else [])
  ++ (if depsHas pkg "openai" then ["OPENAI_API_KEY"] else [])
  ++ (if depsHas pkg "@octokit/rest" || depsHas pkg "@octokit/core" then ["GITHUB_TOKEN"] else [])

/-! ## Deterministic README template (`generateReadmeTemplate`) -/

/-- `repoSummary.repo?.split("/")?.[1]`, falsy-as-empty. -/
def splitSecond (s : String) : String :=
  ((s.splitOn "/").drop 1).headD ""

/-- `group.charAt(0).toUpperCase() + group.slice(1)`. -/
def capitalizeFirst (g : String) : String :=
  match g.data with
  | [] => ""
  | c :: rest => String.mk (c.toUpper :: rest)

/-- `r.apiPath.split("/")[2] || "other"`: the grouping key of an API route
in the README's endpoint section. -/
def routeGroup (r : ApiRouteR) : String :=
  jsOr (((r.apiPath.splitOn "/").drop 2).headD "") "other"

/-- The group keys in first-appearance order (a JS `Map` preserves insertion
order). -/
def routeGroupKeys (rs : List ApiRouteR) : List String :=
  rs.foldl (fun acc r => if acc.contains (routeGroup r) then acc else acc ++ [routeGroup r]) []

/-- The `lines` array built by `generateReadmeTemplate`, in push order.
Each `++`-segment corresponds to one block of `lines.push` calls of the
source; conditional pushes become conditional segments. -/
def generateReadmeLines (repoSummary : RepoSummaryR) (pkg : Option PackageJson)
    (apiRoutes : List ApiRouteR) (constraints : List String)
    (filePaths : List String) : List String :=
  let deps := buildDependencySet pkg
  let scripts := pkgScripts pkg
  let projectName :=
    jsOr (pkgName pkg) (jsOr (splitSecond repoSummary.repo) (jsOr repoSummary.repo "Project"))
  let tagline := jsOr (pkgDescription pkg) "Repository documentation"
  let techStack := inferTechStack pkg
  let envVars := inferEnvVars pkg
  let hasDockerfile := filePaths.any (fun p => jsToLower p = "dockerfile")
  let hasDockerCompose := filePaths.any (fun p => jsIncludes "docker-compose" (jsToLower p))
  let hasDocker := hasDockerfile || hasDockerCompose
  let hasCron := apiRoutes.any (fun r => jsStartsWith "/api/cron" r.apiPath)
  let hasMockMode := filePaths.any (fun p => jsIncludes "mock-adapter" (jsToLower p))
  let usesPrisma := deps.contains "prisma" || deps.contains "@prisma/client"
  let usesNextAuth := deps.contains "next-auth" || deps.contains "@auth/core"
  let features0 :=
    (if usesNextAuth then ["**Authentication**: NextAuth-powered sign-in flows"] else [])
    ++ (if usesPrisma then ["**Database**: Prisma-backed persistence layer"] else [])
    ++ (if apiRoutes ≠ [] then ["**API**: Server routes under `/api/*`"] else [])
    ++ (if hasMockMode then ["**Mock Mode**: Local fixtures for UI development"] else [])
  let features :=
    if features0 = [] then ["**Features**: Add project-specific feature highlights"] else features0
  let pm := pkgPackageManager pkg
  ["# " ++ projectName, "", tagline, "",
   "Generated by NexusDocs from a scan of the repository at ref `" ++ repoSummary.ref ++ "`.", ""]
  ++ (["## Features", ""] ++ features.map (fun f => "- " ++ f) ++ [""])
  ++ (if techStack ≠ [] then ["## Tech Stack", ""] ++ techStack.map (fun t => "- " ++ t) ++ [""] else [])
  ++ (["## Getting Started", "", "### Prerequisites", ""]
      ++ [if pkgEnginesNode pkg ≠ "" then "- Node.js " ++ pkgEnginesNode pkg
          else "- Node.js (see `package.json` engines if specified)"]
      ++ [if jsIncludes "pnpm" pm then "- pnpm"
          else if jsIncludes "yarn" pm then "- yarn" else "- npm"]
      ++ [""])
  ++ ["### Installation", "", "```bash", "npm install", "```", ""]
  ++ (if scripts.any (fun nc => nc.1 = "dev" || nc.1 = "start") then
        ["Start the development server:", "", "```bash",
         if scripts.any (fun nc => nc.1 = "dev") then "npm run dev" else "npm start",
         "```", ""]
      else [])
  ++ (["### Environment Variables", "", "Create a `.env` file and fill in required values.", "",
       "```env"]
      ++ (if envVars ≠ [] then envVars.map (fun v => v ++ "=\"replace-me\"")
          else ["EXAMPLE_VAR=\"replace-me\""])
      ++ ["```", ""])
  ++ (if usesPrisma then
        ["### Database Setup (Prisma)", "", "```bash", "npx prisma db push", "npx prisma studio",
         "```", ""]
      else [])
  ++ (if hasMockMode then
        ["## Mock Mode", "", "If enabled, the UI uses local fixtures instead of hitting live APIs.", ""]
      else [])
  ++ (["## Project Structure", "", "```"]
      ++ repoSummary.topLevel.map (fun d => d.name ++ "/") ++ ["```", ""])
  ++ (if apiRoutes ≠ [] then
        ["## Routes", "", "| Route | Methods |", "|-------|---------|"]
        ++ apiRoutes.map (fun r =>
             "| `" ++ r.apiPath ++ "` | " ++ String.intercalate ", " r.methods ++ " |")
        ++ [""]
        ++ ["## API Endpoints", ""]
        ++ (routeGroupKeys apiRoutes).flatMap (fun g =>
             ["### " ++ capitalizeFirst g, ""]
             ++ (apiRoutes.filter (fun r => routeGroup r = g)).map (fun r =>
                  "- `" ++ r.apiPath ++ "` — " ++ String.intercalate ", " r.methods)
             ++ [""])
      else [])
  ++ ["## Security Notes", "",
      "- Never commit secrets (API keys, tokens, passwords) to version control.",
      "- Store credentials in environment variables and keep them server-side.", ""]
  ++ (if scripts ≠ [] then
        ["## Development", ""]
        ++ (scripts.take 10).map (fun nc => "- `npm run " ++ nc.1 ++ "` — `" ++ nc.2 ++ "`")
        ++ [""]
      else [])
  ++ (if hasDocker then
        ["## Docker", ""]
        ++ (if hasDockerfile then
              ["Build and run the container:", "", "```bash", "docker build -t app .",
               "docker run --rm -p 3000:3000 app", "```", ""]
            else [])
        ++ (if hasDockerCompose then
              ["Run with Docker Compose:", "", "```bash", "docker compose up --build", "```", ""]
            else [])
      else [])
  ++ (if hasCron then
        ["## Cron / Scheduled Scans", "",
         "Document cron endpoints and authentication requirements here.", ""]
      else [])
  ++ (if constraints ≠ [] then
        ["## Regeneration constraints", ""]
        ++ ((constraints.map trimString).filter (fun c => c ≠ "")).map (fun c => "- " ++ c)
        ++ [""]
      else [])
  ++ ["## License", "", "MIT", ""]

/-- `generateReadmeTemplate`: the lines joined with newlines, trimmed, with
a final newline (the source's template literal). -/
def generateReadmeTemplate (repoSummary : RepoSummaryR) (pkg : Option PackageJson)
    (apiRoutes : List ApiRouteR) (constraints : List String)
    (filePaths : List String) : String :=
  trimString (String.intercalate "\n"
    (generateReadmeLines repoSummary pkg apiRoutes constraints filePaths)) ++ "\n"

/-! ## Generic per-target skeleton (`generateMarkdownDocs`) -/

/-- The `lines` array built by `generateMarkdownDocs`, in push order. -/
def generateMarkdownDocsLines (targetType : String) (repoSummary : RepoSummaryR)
    (pkg : Option PackageJson) (apiRoutes : List ApiRouteR)
    (constraints : List String) : List String :=
  let title := repoSummary.repo ++ " — " ++ targetType
  let scripts := pkgScripts pkg
  let lower := jsToLower targetType
  let normalizedConstraints := (constraints.map trimString).filter (fun c => c ≠ "")
  ["# " ++ title, "",
   "Generated by NexusDocs from a scan of the repository at ref `" ++ repoSummary.ref ++ "`.", ""]
  ++ (if jsIncludes "api" lower then
        ["## API Reference", ""]
        ++ (if apiRoutes = [] then ["No `src/app/api/**/route.js` endpoints were detected."]
            else ["### Endpoints", ""]
                 ++ apiRoutes.map (fun r =>
                      "- `" ++ r.apiPath ++ "` — " ++ String.intercalate ", " r.methods))
        ++ [""]
      else [])
  ++ (if jsIncludes "architecture" lower then
        ["## Architecture", "", "### Repository layout (top-level)", ""]
        ++ repoSummary.topLevel.map (fun d =>
             "- `" ++ d.name ++ "/` (" ++ toString d.count ++ " files)")
        ++ ["", "### Notes", "",
            "- Add deeper module-level docs for key directories (e.g. `src/`, `prisma/`, `docs/`).",
            ""]
      else [])
  ++ (if jsIncludes "tutorial" lower then
        ["## Tutorial", "", "### Run locally", ""]
        ++ (if scripts ≠ [] then
              ["Common scripts:", ""]
              ++ (scripts.take 10).map (fun nc => "- `npm run " ++ nc.1 ++ "` — `" ++ nc.2 ++ "`")
            else ["No `scripts` were found in `package.json`."])
        ++ ["", "### Next steps", "", "1. Add screenshots and concrete user flows.",
            "2. Link to the relevant sections in the User Guide and API Reference.", ""]
      else [])
  ++ (if jsIncludes "user guide" lower || jsIncludes "guide" lower then
        ["## User Guide", "", "### Getting started", "",
         "1. Configure environment variables (see your project\x27s `.env` docs).",
         "2. Install dependencies: `npm install`", "3. Start dev server: `npm run dev`", ""]
        ++ (if scripts ≠ [] then
              ["### Useful commands", ""]
              ++ (scripts.take 10).map (fun nc => "- `npm run " ++ nc.1 ++ "` — `" ++ nc.2 ++ "`")
              ++ [""]
            else [])
      else [])
  ++ (if ¬jsIncludes "api" lower ∧ ¬jsIncludes "architecture" lower ∧ ¬jsIncludes "tutorial" lower
        ∧ ¬jsIncludes "user guide" lower ∧ ¬jsIncludes "guide" lower then
        ["## Overview", "",
         "This document was generated from a repository scan. Expand it with project-specific details.",
         ""]
      else [])
  ++ (if normalizedConstraints ≠ [] then
        ["## Regeneration constraints", ""] ++ normalizedConstraints.map (fun c => "- " ++ c) ++ [""]
      else [])

/-- `generateMarkdownDocs` (the `filePaths` and `outputPath` arguments of
the source are destructured but unused by its body). -/
def generateMarkdownDocs (targetType : String) (repoSummary : RepoSummaryR)
    (pkg : Option PackageJson) (apiRoutes : List ApiRouteR) (constraints : List String)
    (filePaths : List String) (outputPath : String) : String :=
  trimString (String.intercalate "\n"
    (generateMarkdownDocsLines targetType repoSummary pkg apiRoutes constraints)) ++ "\n"

/-! ## Per-target generation without an LLM (`scanRepoAndGenerateDocProposals`
target loop, built-in fallback branch) -/

/-- `isReadmeTarget({ targetType, outputPath })`. -/
def isReadmeTarget (targetType outputPath : String) : Bool :=
  jsIncludes "readme" (jsToLower targetType) || jsEndsWith (jsToLower outputPath) "readme.md"

/-- The target-type-specific fallback directory of the generation loop. -/
def fallbackDirFor (ttype : String) : String :=
  if jsIncludes "api" (jsToLower ttype) then "docs/api"
  else if jsIncludes "architecture" (jsToLower ttype) then "docs/architecture"
  else if jsIncludes "tutorial" (jsToLower ttype) then "docs/tutorials"
  else if jsIncludes "user guide" (jsToLower ttype) || jsIncludes "guide" (jsToLower ttype) then
    "docs/guides"
  else "docs"

/-- The resolved output path of a target: `inferOutputPathFromGlob` on the
first truthy configured path (`target.paths?.find(Boolean) || ""`). -/
def targetOutputPath (t : DocTargetR) : String :=
  inferOutputPathFromGlob ((t.paths.find? (fun p => p ≠ "")).getD "")
    (fallbackDirFor t.type) "README.md"

/-- The 80,000-character cap applied to fetched existing content before it
enters generation ("Cap existing content to keep prompts bounded"). -/
def capExistingMarkdown (s : String) : String :=
  if s.data.length > 80000 then sliceChars s 80000 else s

/-- The built-in generator branch (`if (!markdown) { ... }`): conservative
for non-README docs with existing non-blank content, README template for
README targets, generic skeleton otherwise. -/
def builtinTargetMarkdown (t : DocTargetR) (outputPath : String)
    (repoSummary : RepoSummaryR) (pkg : Option PackageJson) (apiRoutes : List ApiRouteR)
    (constraints : List String) (filePaths : List String)
    (existingMarkdown : String) : String :=
  let readmeTarget := isReadmeTarget t.type outputPath
  if readmeTarget = false ∧ existingMarkdown ≠ "" ∧ trimString existingMarkdown ≠ "" then
    existingMarkdown
  else if readmeTarget then
    generateReadmeTemplate repoSummary pkg apiRoutes constraints filePaths
  else
    generateMarkdownDocs t.type repoSummary pkg apiRoutes constraints filePaths outputPath

/-- The markdown the target loop produces for one enabled target when no
LLM client is configured (so no digest exists and `markdown` stays `null`
until the built-in branch): the existing content at the resolved output
path is `existingRaw` before the 80,000-character cap. -/
def generateTargetMarkdownNoLLM (t : DocTargetR) (repoSummary : RepoSummaryR)
    (pkg : Option PackageJson) (apiRoutes : List ApiRouteR) (constraints : List String)
    (filePaths : List String) (existingRaw : String) : String :=
  builtinTargetMarkdown t (targetOutputPath t) repoSummary pkg apiRoutes constraints filePaths
    (capExistingMarkdown existingRaw)

/-! ## LLM digest retry (`generateRepoDigestLLM`)

The one LLM request of the digest step is modelled as a function from the
requested output-token cap to the resolved outcome; a thrown client error
is `Except.error`.  `JSON.parse` is passed in as `parse` (returning `none`
on a parse failure).  The embedding additionally records the list of
output-token caps actually requested, to state the retry discipline. -/

/-- The error the LLM client rejects with (`err?.status`, `err?.message`). -/
structure LlmError where
  status : Option Nat
  message : String
deriving DecidableEq

/-- `err?.status === 429 && (msg.includes("Request too large") ||
msg.includes("tokens per min"))`. -/
def isTooLargeError (e : LlmError) : Bool :=
  e.status = some 429
    && (jsIncludes "Request too large" e.message || jsIncludes "tokens per min" e.message)

/-- `completion.choices?.[0]?.message?.content` of a chat completion. -/
structure ChatCompletion where
  content : Option String
deriving DecidableEq

/-- `Math.max(400, Math.floor(maxOutputTokens * 0.7))`, the reduced cap of
the single retry (at the default cap 900 this is 630, where the JS
floating-point product floors to the same value). -/
def digestRetryTokens (maxOutputTokens : Nat) : Nat :=
  max 400 (7 * maxOutputTokens / 10)

/-- Extracting the digest from a completion: trim the content, treat an
absent or empty text as no digest, and a JSON parse failure as no digest. -/
def parseDigestCompletion {α : Type} (parse : String → Option α)
    (c : ChatCompletion) : Option α :=
  match c.content with
  | none => none
  | some s =>
    let text := trimString s
    if text = "" then none else parse text

/-- `generateRepoDigestLLM` from the first request on: the list of
output-token caps requested, and the outcome (`Except.error` models the
function throwing — a non-size error rethrown, or the unprotected retry
request failing). -/
def generateRepoDigestLLM {α : Type} (request : Nat → Except LlmError ChatCompletion)
    (parse : String → Option α) (maxOutputTokens : Nat) :
    List Nat × Except LlmError (Option α) :=
  match request maxOutputTokens with
  | .ok c => ([maxOutputTokens], .ok (parseDigestCompletion parse c))
  | .error err =>
    if isTooLargeError err then
      match request (digestRetryTokens maxOutputTokens) with
      | .ok c => ([maxOutputTokens, digestRetryTokens maxOutputTokens],
                  .ok (parseDigestCompletion parse c))
      | .error e2 => ([maxOutputTokens, digestRetryTokens maxOutputTokens], .error e2)
    else ([maxOutputTokens], .error err)

/-- The digest as `scanRepoAndGenerateDocProposals` sees it: its
`try/catch` turns any error thrown by `generateRepoDigestLLM` into a `null`
digest and the scan continues. -/
def scanDigestStep {α : Type} (request : Nat → Except LlmError ChatCompletion)
    (parse : String → Option α) (maxOutputTokens : Nat) : Option α :=
  match (generateRepoDigestLLM request parse maxOutputTokens).2 with
  | .ok d => d
  | .error _ => none

/-! ## Throttled progress sink (`createScanProgressUpdater`) and the
terminal scan-record updates of `runScanForProject` -/

/-- `clampPercent`: `Math.max(0, Math.min(100, Math.round(n)))`.  The
incoming percent is modelled as a rational (a finite JS number; the
source maps non-finite input to 0 before clamping). -/
def clampPercent (q : ℚ) : ℤ :=
  max 0 (min 100 (round q))

/-- A progress event as passed to the updater. -/
structure ProgressEventR where
  percent : ℚ
  phase : Option String
  message : Option String

/-- The closure state of `createScanProgressUpdater`: `lastWriteAt` (ms,
initially 0) and the last forwarded `(percent, phase, message)` (initially
all `null`). -/
structure SinkState where
  lastWriteAt : ℤ
  lastPercent : Option ℤ
  lastPhase : Option String
  lastMessage : Option String
deriving DecidableEq

/-- The initial sink state. -/
def initialSinkState : SinkState :=
  { lastWriteAt := 0, lastPercent := none, lastPhase := none, lastMessage := none }

/-- The row data a forwarded update writes to the scan record. -/
structure ProgressWrite where
  progressPercent : ℤ
  progressPhase : Option String
  progressMessage : Option String
deriving DecidableEq

/-- One step of the updater closure at time `now` (`Date.now()`): returns
the new closure state and the write forwarded to persistence, if any.
`if (!progress) return` is the `none` event case; an update is forwarded
only when `(percent, phase, message)` differs from the last forwarded
triple AND at least 600 ms have elapsed since the last forward. -/
def updateProgress (st : SinkState) (now : ℤ) (progress : Option ProgressEventR) :
    SinkState × Option ProgressWrite :=
  match progress with
  | none => (st, none)
  | some p =>
    let percent := clampPercent p.percent
    let phase := jsStringOrNull p.phase
    let message := jsStringOrNull p.message
    let changed :=
      some percent ≠ st.lastPercent ∨ phase ≠ st.lastPhase ∨ message ≠ st.lastMessage
    let throttleOk := 600 ≤ now - st.lastWriteAt
    if ¬changed ∨ ¬throttleOk then (st, none)
    else
      ({ lastWriteAt := now, lastPercent := some percent, lastPhase := phase,
         lastMessage := message },
       some { progressPercent := percent, progressPhase := phase, progressMessage := message })

/-- The terminal scan-record fields `runScanForProject` writes directly
(via `prisma.scan.update`, not through the progress sink) when the scan
completes. -/
structure ScanFinalUpdate where
  status : String
  progressPhase : String
  progressPercent : Option ℤ
  progressMessage : String
deriving DecidableEq

/-- The completion update: status `completed`, phase `done`, percent 100,
message depending on whether any proposal files were built. -/
def scanCompletionUpdate (proposalFileCount : Nat) : ScanFinalUpdate :=
  { status := "completed", progressPhase := "done", progressPercent := some 100,
    progressMessage :=
      if proposalFileCount > 0 then "Completed"
      else "Completed - No documentation changes detected" }

/-- The failure update: status `failed`, phase `failed`, the error message
(no percent field is written). -/
def scanFailureUpdate (message : String) : ScanFinalUpdate :=
  { status := "failed", progressPhase := "failed", progressPercent := none,
    progressMessage := message }

/-! ## Concrete instances used by witnesses and counterexamples -/

/-- A concrete non-README doc target with a glob-free `.md` output path. -/
def archTarget : DocTargetR :=
  { type := "Architecture", paths := ["docs/architecture/notes.md"], enabled := true }

/-- A concrete repo summary. -/
def demoRepoSummary : RepoSummaryR :=
  { repo := "octo/app", ref := "main", totalFiles := 3, topLevel := [] }

/-- An existing document of 80,001 characters: one character beyond the
80,000-character cap applied to existing content. -/
def overCapDoc : String :=
  String.mk (List.replicate 80001 'a')

/-- A small existing non-README document. -/
def smallArchDoc : String :=
  "# Existing architecture notes"

/-- Candidates for the read-set counterexample: two files with blob shas,
of sizes 2 and 1 characters. -/
def twoCandidates : List (Option BlobFile) :=
  [some { path := "a.md", text := ['x', 'x'] }, some { path := "b.md", text := ['y'] }]

/-- A manifest declaring `next` and `prisma` as dependencies. -/
def nextPrismaPkg : PackageJson :=
  { name := some "demo", description := none, dependencies := ["next", "prisma"],
    devDependencies := [], scripts := [], enginesNode := none, packageManager := none }

/-- A fetch map under which `docs/x.md` exists with content `same`. -/
def sameContentFetch : String → FetchResultR :=
  fun _ => { exists_ := true, content := some "same", sha := some "abc" }

/-- A proposal item whose generated markdown equals the existing content. -/
def sameContentItem : ProposalItem :=
  { outputPath := "docs/x.md", markdown := some "same" }

/-- A placeholder unified-diff function for concrete instances. -/
def diffStub : String → String → String → String :=
  fun p b a => p ++ "|" ++ b ++ "|" ++ a

/-- A sink state that has just forwarded an update at time 1000. -/
def justWroteState : SinkState :=
  { lastWriteAt := 1000, lastPercent := some 95, lastPhase := some "db",
    lastMessage := some "Saving proposal" }

/-- A terminal `done` event arriving 100 ms after the last forward. -/
def doneEvent : ProgressEventR :=
  { percent := 100, phase := some "done", message := some "Completed" }

/-- A hosting-API response used in concrete instances. -/
def emptyOkResponse : Except String ContentsResponse :=
  .ok { content := none, sha := none }

/-- A concrete LLM request schedule: the first call rejects with a 429
"Request too large" error, the retry succeeds with parseable content. -/
def retryThenOkRequest : Nat → Except LlmError ChatCompletion :=
  fun tok =>
    if tok = 900 then .error { status := some 429, message := "Request too large for org" }
    else .ok { content := some "\x7b\x7d" }

/-- A parser accepting exactly the text `{}` (stands in for `JSON.parse`). -/
def acceptBracesParse : String → Option Nat :=
  fun s => if s = "\x7b\x7d" then some 1 else none

/-! ## Theorems -/

theorem fetchLoop_zero (files : List (Option BlobFile)) : fetchLoop 0 files = [] := by
  induction files with
  | nil => rfl
  | cons f rest ih =>
    cases f with
    | none => simpa [fetchLoop] using ih
    | some f => simp [fetchLoop]

theorem fetchLoop_sum_le (files : List (Option BlobFile)) :
    ∀ B : Nat, ((fetchLoop B files).map (fun e => e.2.length)).sum ≤ B := by
  induction files with
  | nil => intro B; simp [fetchLoop]
  | cons f rest ih =>
    intro B
    cases f with
    | none => simpa [fetchLoop] using ih B
    | some f =>
      by_cases hB : B = 0
      · subst hB; simp [fetchLoop]
      · have hle : (if f.text.length > B then f.text.take B else f.text).length ≤ B := by
          by_cases h : f.text.length > B
          · simp [h, List.length_take]
          · simp [h]; omega
        have hrec := ih (B - (if f.text.length > B then f.text.take B else f.text).length)
        simp only [fetchLoop, if_neg hB, List.map_cons, List.sum_cons]
        omega

theorem fetchLoop_length_le (files : List (Option BlobFile)) :
    ∀ B : Nat, (fetchLoop B files).length ≤ files.length := by
  induction files with
  | nil => intro B; simp [fetchLoop]
  | cons f rest ih =>
    intro B
    cases f with
    | none =>
      calc (fetchLoop B rest).length ≤ rest.length := ih B
      _ ≤ (none :: rest).length := by simp
    | some f =>
      by_cases hB : B = 0
      · subst hB; simp [fetchLoop]
      · simp only [fetchLoop, if_neg hB, List.length_cons]
        exact Nat.succ_le_succ (ih _)

/-- C2: the content-fetch loop respects the global character budget: for any
candidate list and budget `B`, the lengths of the stored (truncated) texts
sum to at most `B`; each file is truncated to the budget remaining when it
is fetched; and fetching stops (returns no further entries) once the budget
is exhausted. -/
theorem fetch_budget_invariant :
    (∀ (B : Nat) (files : List (Option BlobFile)),
        ((fetchLoop B files).map (fun e => e.2.length)).sum ≤ B)
    ∧ (∀ (B : Nat) (f : BlobFile) (rest : List (Option BlobFile)), B ≠ 0 →
        fetchLoop B (some f :: rest)
          = (f.path, if f.text.length > B then f.text.take B else f.text)
            :: fetchLoop (B - (if f.text.length > B then f.text.take B else f.text).length) rest)
    ∧ (∀ files : List (Option BlobFile), fetchLoop 0 files = []) := by
  refine ⟨fun B files => fetchLoop_sum_le files B, ?_, fetchLoop_zero⟩
  intro B f rest hB
  simp [fetchLoop, if_neg hB]

/-- C4 counterexample: with two 2- and 1-character candidate files, a
max-files budget of 40 and a character budget of 1, `filesScanned` is 2 but
only one file's content is actually fetched (the loop breaks once the
budget is exhausted), so `filesScanned` differs from the number of files
whose content is actually fetched. -/
theorem filesScanned_neq_fetched_count :
    filesScannedOf twoCandidates 40 = 2
    ∧ (fetchLoop 1 (toReadOf twoCandidates 40)).length = 1 := by
  constructor <;> rfl

/-- C4 (amended): `filesScanned` equals the size of the selected read set —
the first `maxFiles` candidates, i.e. `min maxFiles |candidates|` — and is
always ≤ the max-files budget; the number of files actually fetched is at
most `filesScanned` (and can be smaller, as the counterexample shows). -/
theorem filesScanned_eq_read_set_size :
    ∀ (candidates : List (Option BlobFile)) (maxFiles B : Nat),
      filesScannedOf candidates maxFiles = min maxFiles candidates.length
      ∧ filesScannedOf candidates maxFiles ≤ maxFiles
      ∧ (fetchLoop B (toReadOf candidates maxFiles)).length
          ≤ filesScannedOf candidates maxFiles := by
  intro c m B
  refine ⟨by simp [filesScannedOf, toReadOf], ?_, fetchLoop_length_le _ B⟩
  simp only [filesScannedOf, toReadOf, List.length_take]
  omega

/-- C3: the proposal-file loop of the cron scan route suppresses no-op
targets: a proposal whose generated markdown equals the existing content at
its output path contributes no `ProposalFile` row; every row built comes
from a proposal whose before/after contents differ, with operation
`create` when the file does not exist and `update` when it does. -/
theorem noop_proposal_suppression :
    ∀ (fetch : String → FetchResultR) (diff : String → String → String → String),
      (∀ (item : ProposalItem) (rest : List ProposalItem),
          beforeContent (fetch item.outputPath) = item.markdown.getD "" →
          buildProposalFiles fetch diff (item :: rest) = buildProposalFiles fetch diff rest)
      ∧ (∀ (items : List ProposalItem) (pf : ProposalFile),
          pf ∈ buildProposalFiles fetch diff items →
          ∃ item ∈ items,
            pf.filePath = item.outputPath
            ∧ beforeContent (fetch item.outputPath) ≠ item.markdown.getD ""
            ∧ ((fetch item.outputPath).exists_ = false → pf.operation = "create")
            ∧ ((fetch item.outputPath).exists_ = true → pf.operation = "update")) := by
  intro fetch diff
  constructor
  · intro item rest h
    simp [buildProposalFiles, h]
  · intro items
    induction items with
    | nil => intro pf h; simp [buildProposalFiles] at h
    | cons item rest ih =>
      intro pf h
      by_cases heq : beforeContent (fetch item.outputPath) = item.markdown.getD ""
      · rw [show buildProposalFiles fetch diff (item :: rest) = buildProposalFiles fetch diff rest
              from by simp [buildProposalFiles, heq]] at h
        obtain ⟨it, hit, hrest⟩ := ih pf h
        exact ⟨it, List.mem_cons_of_mem _ hit, hrest⟩
      · simp only [buildProposalFiles, if_pos heq] at h
        rw [List.mem_cons] at h
        rcases h with h | h
        · subst h
          refine ⟨item, List.mem_cons_self _ _, rfl, heq, ?_, ?_⟩
          · intro hex; simp [hex]
          · intro hex; simp [hex]
        · obtain ⟨it, hit, hrest⟩ := ih pf h
          exact ⟨it, List.mem_cons_of_mem _ hit, hrest⟩

theorem starRun_iff (k : List Char → Bool) :
    ∀ s, starRun k s = true ↔ ∃ a b, s = a ++ b ∧ (∀ c ∈ a, c ≠ '/') ∧ k b = true := by
  intro s
  induction s with
  | nil =>
    simp only [starRun]
    constructor
    · intro h; exact ⟨[], [], rfl, by simp, h⟩
    · rintro ⟨a, b, hab, _, hk⟩
      obtain ⟨ha, hb⟩ := List.append_eq_nil.mp hab.symm
      subst ha; subst hb; exact hk
  | cons x xs ih =>
    simp only [starRun, Bool.or_eq_true, Bool.and_eq_true, Bool.not_eq_true',
      decide_eq_false_iff_not]
    constructor
    · rintro (hk | ⟨hx, hrec⟩)
      · exact ⟨[], x :: xs, rfl, by simp, hk⟩
      · obtain ⟨a, b, hab, ha, hkb⟩ := ih.mp hrec
        refine ⟨x :: a, b, by simp [hab], ?_, hkb⟩
        intro c hc
        rcases List.mem_cons.mp hc with rfl | hc
        · exact hx
        · exact ha c hc
    · rintro ⟨a, b, hab, ha, hkb⟩
      cases a with
      | nil =>
        simp only [List.nil_append] at hab
        subst hab; exact Or.inl hkb
      | cons c a2 =>
        simp only [List.cons_append, List.cons.injEq] at hab
        obtain ⟨rfl, hxs⟩ := hab
        refine Or.inr ⟨ha x (List.mem_cons_self _ _), ?_⟩
        exact ih.mpr ⟨a2, b, hxs, fun d hd => ha d (List.mem_cons_of_mem _ hd), hkb⟩

theorem anyAfterSlash_iff (k : List Char → Bool) :
    ∀ s, anyAfterSlash k s = true
      ↔ ∃ a b, s = a ++ '/' :: b ∧ (∀ c ∈ a, isLineTerminator c = false) ∧ k b = true := by
  intro s
  induction s with
  | nil =>
    simp only [anyAfterSlash]
    constructor
    · intro h; cases h
    · rintro ⟨a, b, hab, _, _⟩
      cases a <;> simp at hab
  | cons x xs ih =>
    simp only [anyAfterSlash, Bool.or_eq_true, Bool.and_eq_true, decide_eq_true_eq,
      Bool.not_eq_true']
    constructor
    · rintro (⟨rfl, hk⟩ | ⟨hx, hrec⟩)
      · exact ⟨[], xs, rfl, by simp, hk⟩
      · obtain ⟨a, b, hab, hlt, hk⟩ := ih.mp hrec
        refine ⟨x :: a, b, by simp [hab], ?_, hk⟩
        intro c hc
        rcases List.mem_cons.mp hc with rfl | hc
        · exact hx
        · exact hlt c hc
    · rintro ⟨a, b, hab, hlt, hk⟩
      cases a with
      | nil =>
        simp only [List.nil_append, List.cons.injEq] at hab
        obtain ⟨rfl, rfl⟩ := hab
        exact Or.inl ⟨rfl, hk⟩
      | cons c a2 =>
        simp only [List.cons_append, List.cons.injEq] at hab
        obtain ⟨rfl, hxs⟩ := hab
        refine Or.inr ⟨hlt x (List.mem_cons_self _ _), ?_⟩
        exact ih.mpr ⟨a2, b, hxs, fun d hd => hlt d (List.mem_cons_of_mem _ hd), hk⟩

/-- C5 counterexample: the `**/` element does not match every whole
segment — the segment `a\nb` (a path segment containing a newline) is
rejected, because `globToRegExp` emits `(?:.*/)?` and a flagless JS `.`
does not match line terminators.  The same path without the newline
matches. -/
theorem glob_doublestar_rejects_newline_segment :
    anyGlobMatches ["docs/**/x.md"] "docs/ab/x.md" = true
    ∧ anyGlobMatches ["docs/**/x.md"] "docs/a\nb/x.md" = false := by
  constructor <;> decide

/-- C5 (amended): the glob matcher validates the spec instances —
`anyGlobMatches(["docs/**/*.md"], "docs/a/b.md")` is true,
`anyGlobMatches(["docs/*.md"], "docs/a/b.md")` is false,
`anyGlobMatches(["*.md"], "readme.md")` is true — and in general a `*`
token matches only a slash-free run within one segment, a `**/` token
matches zero or more whole segments containing no line terminator (its
`(?:.*/)?` translation uses `.`, which excludes LF, CR, U+2028 and
U+2029), and `?` matches exactly one non-separator character. -/
theorem glob_matcher_correct :
    (anyGlobMatches ["docs/**/*.md"] "docs/a/b.md" = true
      ∧ anyGlobMatches ["docs/*.md"] "docs/a/b.md" = false
      ∧ anyGlobMatches ["*.md"] "readme.md" = true)
    ∧ (∀ (ts : List GlobTok) (s : List Char),
        globMatch (.starSegment :: ts) s = true
          ↔ ∃ a b, s = a ++ b ∧ (∀ c ∈ a, c ≠ '/') ∧ globMatch ts b = true)
    ∧ (∀ (ts : List GlobTok) (s : List Char),
        globMatch (.doubleStarSlash :: ts) s = true
          ↔ globMatch ts s = true
            ∨ ∃ a b, s = a ++ '/' :: b ∧ (∀ c ∈ a, isLineTerminator c = false)
                ∧ globMatch ts b = true)
    ∧ (∀ (ts : List GlobTok) (s : List Char),
        globMatch (.oneChar :: ts) s = true
          ↔ ∃ (c : Char) (rest : List Char), s = c :: rest ∧ c ≠ '/' ∧ globMatch ts rest = true) := by
  refine ⟨⟨by decide, by decide, by decide⟩, ?_, ?_, ?_⟩
  · intro ts s
    simpa only [globMatch] using starRun_iff (globMatch ts) s
  · intro ts s
    simp only [globMatch, Bool.or_eq_true]
    exact or_congr Iff.rfl (anyAfterSlash_iff (globMatch ts) s)
  · intro ts s
    cases s with
    | nil =>
      simp [globMatch]
    | cons x xs =>
      simp only [globMatch, Bool.and_eq_true, Bool.not_eq_true', decide_eq_false_iff_not]
      constructor
      · rintro ⟨hx, hm⟩
        exact ⟨x, xs, rfl, hx, hm⟩
      · rintro ⟨c, rest, hcons, hc, hm⟩
        cases hcons
        exact ⟨hc, hm⟩

/-- C6 counterexample: the pattern `" a.md"` (leading space) contains no
glob token and ends in `.md`, yet `inferOutputPathFromGlob` does not return
it verbatim — the source trims (and posix-normalizes) the pattern first and
returns `"a.md"`. -/
theorem inferOutputPath_not_verbatim :
    (" a.md".data.all (fun c => ¬(c = '*' ∨ c = '?'))) = true
    ∧ jsEndsWith " a.md" ".md" = true
    ∧ inferOutputPathFromGlob " a.md" "docs" "README.md" = "a.md"
    ∧ inferOutputPathFromGlob " a.md" "docs" "README.md" ≠ " a.md" := by
  refine ⟨by decide, by decide, by decide, by decide⟩

/-- C6 (amended): `inferOutputPathFromGlob` first normalizes the pattern
(backslashes to slashes, then trim); on the normalized pattern `pat`: with
no `*` or `?` and a (lowercased) `.md` suffix it returns `pat` — hence the
original pattern verbatim exactly when the pattern is already normalized;
with a glob token at least index `i`, it returns the directory prefix
before that token (trailing slash dropped) joined with the fallback
filename, and `fallbackDir/fallbackFile` when that prefix is empty. -/
theorem inferOutputPath_spec (globPattern fallbackDir fallbackFile : String) :
    (List.findIdx? (fun c => c = '*' || c = '?') (trimChars (toPosixChars globPattern.data)) = none →
      jsEndsWith (jsToLower (String.mk (trimChars (toPosixChars globPattern.data)))) ".md" = true →
      inferOutputPathFromGlob globPattern fallbackDir fallbackFile
        = String.mk (trimChars (toPosixChars globPattern.data)))
    ∧ (globPattern = String.mk (trimChars (toPosixChars globPattern.data)) →
       List.findIdx? (fun c => c = '*' || c = '?') (trimChars (toPosixChars globPattern.data)) = none →
       jsEndsWith (jsToLower (String.mk (trimChars (toPosixChars globPattern.data)))) ".md" = true →
       inferOutputPathFromGlob globPattern fallbackDir fallbackFile = globPattern)
    ∧ (∀ i, List.findIdx? (fun c => c = '*' || c = '?') (trimChars (toPosixChars globPattern.data)) = some i →
        dropTrailingSlash ((trimChars (toPosixChars globPattern.data)).take i) ≠ [] →
        inferOutputPathFromGlob globPattern fallbackDir fallbackFile
          = String.mk (dropTrailingSlash ((trimChars (toPosixChars globPattern.data)).take i))
            ++ "/" ++ fallbackFile)
    ∧ (∀ i, List.findIdx? (fun c => c = '*' || c = '?') (trimChars (toPosixChars globPattern.data)) = some i →
        dropTrailingSlash ((trimChars (toPosixChars globPattern.data)).take i) = [] →
        inferOutputPathFromGlob globPattern fallbackDir fallbackFile
          = fallbackDir ++ "/" ++ fallbackFile) := by
  have hemptymd : ∀ (h : trimChars (toPosixChars globPattern.data) = []),
      jsEndsWith (jsToLower (String.mk (trimChars (toPosixChars globPattern.data)))) ".md" = false := by
    intro h; rw [h]; decide
  refine ⟨?_, ?_, ?_, ?_⟩
  · intro hidx hmd
    by_cases hnil : trimChars (toPosixChars globPattern.data) = []
    · rw [hemptymd hnil] at hmd; cases hmd
    · simp only [inferOutputPathFromGlob, if_neg hnil, hidx, hmd, if_pos]
  · intro hfix hidx hmd
    by_cases hnil : trimChars (toPosixChars globPattern.data) = []
    · rw [hemptymd hnil] at hmd; cases hmd
    · simp only [inferOutputPathFromGlob, if_neg hnil, hidx, hmd, if_pos]
      exact hfix.symm
  · intro i hidx hne
    have hnil : trimChars (toPosixChars globPattern.data) ≠ [] := by
      intro h; rw [h] at hidx; simp [List.findIdx?] at hidx
    simp only [inferOutputPathFromGlob, if_neg hnil, hidx, if_neg hne]
  · intro i hidx hz
    have hnil : trimChars (toPosixChars globPattern.data) ≠ [] := by
      intro h; rw [h] at hidx; simp [List.findIdx?] at hidx
    simp only [inferOutputPathFromGlob, if_neg hnil, hidx, if_pos hz]

theorem dropWhile_ws_replicate_a (n : Nat) :
    List.dropWhile Char.isWhitespace (List.replicate n 'a') = List.replicate n 'a' := by
  cases n with
  | zero => rfl
  | succ m =>
    rw [List.replicate_succ, List.dropWhile_cons]
    simp

theorem trimChars_replicate_a (n : Nat) :
    trimChars (List.replicate n 'a') = List.replicate n 'a' := by
  unfold trimChars
  rw [dropWhile_ws_replicate_a, List.reverse_replicate, dropWhile_ws_replicate_a,
    List.reverse_replicate]

theorem mk_replicate_a_ne_empty (n : Nat) (hn : n ≠ 0) :
    String.mk (List.replicate n 'a') ≠ "" := by
  intro h
  have hd := congrArg String.data h
  simp only at hd
  have := congrArg List.length hd
  simp [List.length_replicate] at this
  exact hn this

/-- C1 counterexample: a non-README target whose output path holds an
existing 80,001-character (non-blank) document.  With no LLM configured the
produced markdown is the document truncated to 80,000 characters — not the
existing content byte-for-byte. -/
theorem conservative_fallback_truncates :
    isReadmeTarget archTarget.type (targetOutputPath archTarget) = false
    ∧ trimString overCapDoc ≠ ""
    ∧ generateTargetMarkdownNoLLM archTarget demoRepoSummary none [] [] [] overCapDoc
        = String.mk (List.replicate 80000 'a')
    ∧ generateTargetMarkdownNoLLM archTarget demoRepoSummary none [] [] [] overCapDoc
        ≠ overCapDoc := by
  have hdata : overCapDoc.data = List.replicate 80001 'a' := rfl
  have hcap : capExistingMarkdown overCapDoc = String.mk (List.replicate 80000 'a') := by
    unfold capExistingMarkdown sliceChars
    rw [hdata]
    simp only [List.length_replicate, List.take_replicate]
    norm_num
  have hreadme : isReadmeTarget archTarget.type (targetOutputPath archTarget) = false := by
    decide
  have htrimcap : trimString (capExistingMarkdown overCapDoc) ≠ "" := by
    rw [hcap]
    unfold trimString
    simp only
    rw [trimChars_replicate_a]
    exact mk_replicate_a_ne_empty 80000 (by norm_num)
  have hcapne : capExistingMarkdown overCapDoc ≠ "" := by
    rw [hcap]; exact mk_replicate_a_ne_empty 80000 (by norm_num)
  have hmain : generateTargetMarkdownNoLLM archTarget demoRepoSummary none [] [] [] overCapDoc
      = String.mk (List.replicate 80000 'a') := by
    unfold generateTargetMarkdownNoLLM builtinTargetMarkdown
    rw [if_pos ⟨hreadme, hcapne, htrimcap⟩]
    exact hcap
  refine ⟨hreadme, ?_, hmain, ?_⟩
  · unfold trimString
    rw [show overCapDoc.data = List.replicate 80001 'a' from rfl, trimChars_replicate_a]
    exact mk_replicate_a_ne_empty 80001 (by norm_num)
  · rw [hmain]
    intro h
    have hd : List.replicate 80000 'a' = List.replicate 80001 'a' := congrArg String.data h
    have hlen := congrArg List.length hd
    rw [List.length_replicate, List.length_replicate] at hlen
    exact absurd hlen (by norm_num)

/-- C1 (amended): for an enabled non-README target with no LLM configured,
the produced markdown equals the existing content after the source's
80,000-character cap, provided the capped content is still non-blank; it is
the existing content byte-for-byte exactly when the content is at most
80,000 characters long. -/
theorem conservative_fallback (t : DocTargetR) (repoSummary : RepoSummaryR)
    (pkg : Option PackageJson) (apiRoutes : List ApiRouteR) (constraints : List String)
    (filePaths : List String) (existingRaw : String)
    (hNotReadme : isReadmeTarget t.type (targetOutputPath t) = false)
    (hNonBlank : trimString (capExistingMarkdown existingRaw) ≠ "") :
    generateTargetMarkdownNoLLM t repoSummary pkg apiRoutes constraints filePaths existingRaw
      = capExistingMarkdown existingRaw
    ∧ (existingRaw.data.length ≤ 80000 →
        generateTargetMarkdownNoLLM t repoSummary pkg apiRoutes constraints filePaths existingRaw
          = existingRaw) := by
  have hcapne : capExistingMarkdown existingRaw ≠ "" := by
    intro h
    apply hNonBlank
    rw [h]
    rfl
  have hmain : generateTargetMarkdownNoLLM t repoSummary pkg apiRoutes constraints filePaths
      existingRaw = capExistingMarkdown existingRaw := by
    unfold generateTargetMarkdownNoLLM builtinTargetMarkdown
    rw [if_pos ⟨hNotReadme, hcapne, hNonBlank⟩]
  refine ⟨hmain, fun hlen => ?_⟩
  have hid : capExistingMarkdown existingRaw = existingRaw := by
    unfold capExistingMarkdown
    rw [if_neg (by omega)]
  rw [hmain, hid]

/-- C1 witness: a concrete small non-README architecture document is
returned unchanged by the no-LLM generation path. -/
theorem conservative_fallback_witness :
    generateTargetMarkdownNoLLM archTarget demoRepoSummary none [] [] [] smallArchDoc
      = smallArchDoc := by
  exact (conservative_fallback archTarget demoRepoSummary none [] [] [] smallArchDoc
    (by decide) (by decide)).2 (by decide)

/-- C7: with no LLM configured, for any manifest whose dependencies include
`next` and `prisma`, the deterministic README template emits the
"### Database Setup (Prisma)" section and lists `DATABASE_URL` among the
environment variables (both in `inferEnvVars` and as a line of the
generated env block). -/
theorem readme_database_setup (repoSummary : RepoSummaryR) (p : PackageJson)
    (apiRoutes : List ApiRouteR) (constraints : List String) (filePaths : List String)
    (hprisma : "prisma" ∈ p.dependencies) (hnext : "next" ∈ p.dependencies) :
    "### Database Setup (Prisma)"
        ∈ generateReadmeLines repoSummary (some p) apiRoutes constraints filePaths
    ∧ "DATABASE_URL=\"replace-me\""
        ∈ generateReadmeLines repoSummary (some p) apiRoutes constraints filePaths
    ∧ "DATABASE_URL" ∈ inferEnvVars (some p) := by
  have hmem : "prisma" ∈ buildDependencySet (some p) := by
    unfold buildDependencySet pkgDependencies pkgDevDependencies
    exact List.mem_map.mpr ⟨"prisma", List.mem_append_left _ hprisma, by decide⟩
  have hc : (buildDependencySet (some p)).contains "prisma" = true :=
    List.elem_eq_true_of_mem hmem
  have henv : "DATABASE_URL" ∈ inferEnvVars (some p) := by
    unfold inferEnvVars depsHas
    rw [hc]
    simp
  have hnenil : inferEnvVars (some p) ≠ [] := List.ne_nil_of_mem henv
  have hmapmem : "DATABASE_URL=\"replace-me\""
      ∈ (inferEnvVars (some p)).map (fun v => v ++ "=\"replace-me\"") := by
    simpa using List.mem_map_of_mem (fun v => v ++ "=\"replace-me\"") henv
  refine ⟨?_, ?_, henv⟩
  · simp [generateReadmeLines, hmem, List.mem_append]
  · simp [generateReadmeLines, hmem, hnenil, hmapmem, List.mem_append]

/-- C7 witness: the concrete manifest with dependencies `next` and `prisma`
produces the Database Setup section and the `DATABASE_URL` env var. -/
theorem readme_database_setup_witness :
    "### Database Setup (Prisma)"
        ∈ generateReadmeLines demoRepoSummary (some nextPrismaPkg) [] [] []
    ∧ "DATABASE_URL" ∈ inferEnvVars (some nextPrismaPkg) := by
  refine ⟨(readme_database_setup demoRepoSummary nextPrismaPkg [] [] []
      (by decide) (by decide)).1,
    (readme_database_setup demoRepoSummary nextPrismaPkg [] [] []
      (by decide) (by decide)).2.2⟩

/-- C8: the digest step issues exactly one retry, with the reduced
output-token cap `max 400 (⌊0.7 · cap⌋)`, when and only when the first
request fails with a 429 whose message reads as request-too-large; any
other error — and a retry failure, and an unparseable or empty response —
leaves the scan-level digest `null` (`scanDigestStep` never propagates an
error to the caller of `scanRepoAndGenerateDocProposals`); a successful
retry yields the parsed digest; and for any configured cap above 400 the
retry cap is strictly smaller. -/
theorem digest_retry_discipline {α : Type} (request : Nat → Except LlmError ChatCompletion)
    (parse : String → Option α) (maxOutputTokens : Nat) :
    (∀ c, request maxOutputTokens = .ok c →
        (generateRepoDigestLLM request parse maxOutputTokens).1 = [maxOutputTokens]
        ∧ scanDigestStep request parse maxOutputTokens = parseDigestCompletion parse c)
    ∧ (∀ e, request maxOutputTokens = .error e → isTooLargeError e = false →
        (generateRepoDigestLLM request parse maxOutputTokens).1 = [maxOutputTokens]
        ∧ (generateRepoDigestLLM request parse maxOutputTokens).2 = .error e
        ∧ scanDigestStep request parse maxOutputTokens = none)
    ∧ (∀ e, request maxOutputTokens = .error e → isTooLargeError e = true →
        (generateRepoDigestLLM request parse maxOutputTokens).1
          = [maxOutputTokens, digestRetryTokens maxOutputTokens])
    ∧ (∀ e c, request maxOutputTokens = .error e → isTooLargeError e = true →
        request (digestRetryTokens maxOutputTokens) = .ok c →
        scanDigestStep request parse maxOutputTokens = parseDigestCompletion parse c)
    ∧ (∀ e e2, request maxOutputTokens = .error e → isTooLargeError e = true →
        request (digestRetryTokens maxOutputTokens) = .error e2 →
        scanDigestStep request parse maxOutputTokens = none)
    ∧ (∀ c s, request maxOutputTokens = .ok c → c.content = some s →
        parse (trimString s) = none →
        scanDigestStep request parse maxOutputTokens = none)
    ∧ (400 < maxOutputTokens → digestRetryTokens maxOutputTokens < maxOutputTokens) := by
  refine ⟨?_, ?_, ?_, ?_, ?_, ?_, ?_⟩
  · intro c hreq
    simp [generateRepoDigestLLM, scanDigestStep, hreq]
  · intro e hreq hlarge
    simp [generateRepoDigestLLM, scanDigestStep, hreq, hlarge]
  · intro e hreq hlarge
    cases h2 : request (digestRetryTokens maxOutputTokens) with
    | ok c => simp [generateRepoDigestLLM, hreq, hlarge, h2]
    | error e2 => simp [generateRepoDigestLLM, hreq, hlarge, h2]
  · intro e c hreq hlarge h2
    simp [generateRepoDigestLLM, scanDigestStep, hreq, hlarge, h2]
  · intro e e2 hreq hlarge h2
    simp [generateRepoDigestLLM, scanDigestStep, hreq, hlarge, h2]
  · intro c s hreq hcontent hparse
    by_cases hempty : trimString s = ""
    · simp [generateRepoDigestLLM, scanDigestStep, hreq, parseDigestCompletion, hcontent, hempty]
    · simp [generateRepoDigestLLM, scanDigestStep, hreq, parseDigestCompletion, hcontent, hempty,
        hparse]
  · intro h
    simp only [digestRetryTokens]
    omega

/-- C8 companion check at the concrete retry schedule: the first call at
the default cap 900 fails as too-large, the retry at the reduced cap 630
succeeds, and the resulting digest is non-null. -/
theorem digest_retry_instance :
    (generateRepoDigestLLM retryThenOkRequest acceptBracesParse 900).1 = [900, 630]
    ∧ scanDigestStep retryThenOkRequest acceptBracesParse 900 = some 1 := by
  constructor <;> rfl

/-- C9 counterexample: a sink that forwarded an update at time 1000
receives the terminal `done` event at time 1100.  The event differs from
the last forwarded triple (the phase changed), yet the sink forwards
nothing: the 600 ms throttle also gates phase changes, so the sink alone
does not guarantee delivery of the terminal event. -/
theorem sink_drops_terminal_event :
    jsStringOrNull doneEvent.phase ≠ justWroteState.lastPhase
    ∧ (updateProgress justWroteState 1100 (some doneEvent)).2 = none := by
  constructor
  · decide
  · have hthrottle : ¬(600 ≤ (1100 : ℤ) - justWroteState.lastWriteAt) := by decide
    simp [updateProgress, hthrottle]

/-- Unfolding of the sink step for a present event: forwarded exactly when
the triple changed and the throttle interval elapsed. -/
theorem updateProgress_eq (st : SinkState) (now : ℤ) (p : ProgressEventR) :
    updateProgress st now (some p)
      = if (some (clampPercent p.percent) ≠ st.lastPercent
              ∨ jsStringOrNull p.phase ≠ st.lastPhase
              ∨ jsStringOrNull p.message ≠ st.lastMessage)
            ∧ 600 ≤ now - st.lastWriteAt then
          ({ lastWriteAt := now, lastPercent := some (clampPercent p.percent),
             lastPhase := jsStringOrNull p.phase, lastMessage := jsStringOrNull p.message },
           some { progressPercent := clampPercent p.percent,
                  progressPhase := jsStringOrNull p.phase,
                  progressMessage := jsStringOrNull p.message })
        else (st, none) := by
  simp only [updateProgress]
  by_cases hC : ((some (clampPercent p.percent) ≠ st.lastPercent
      ∨ jsStringOrNull p.phase ≠ st.lastPhase
      ∨ jsStringOrNull p.message ≠ st.lastMessage)
    ∧ 600 ≤ now - st.lastWriteAt)
  · rw [if_neg (by tauto), if_pos hC]
  · rw [if_pos (by tauto), if_neg hC]

/-- C9 (amended): the progress sink clamps each forwarded percent to
`[0,100]` (after rounding to an integer) and forwards an update exactly
when the `(percent, phase, message)` triple differs from the last forwarded
one AND at least 600 ms have elapsed since the last forward — so an event,
terminal included, arriving inside the throttle window is dropped by the
sink (see the counterexample); the caller still observes the terminal
`done`/`failed` state because `runScanForProject` writes it directly to the
scan record, bypassing the sink. -/
theorem progress_sink_spec :
    (∀ (st : SinkState) (now : ℤ) (p : ProgressEventR) (st2 : SinkState) (w : ProgressWrite),
        updateProgress st now (some p) = (st2, some w) →
        w.progressPercent = clampPercent p.percent
        ∧ 0 ≤ w.progressPercent ∧ w.progressPercent ≤ 100
        ∧ st2.lastWriteAt = now)
    ∧ (∀ (st : SinkState) (now : ℤ) (p : ProgressEventR),
        (updateProgress st now (some p)).2 ≠ none
          ↔ ((some (clampPercent p.percent) ≠ st.lastPercent
               ∨ jsStringOrNull p.phase ≠ st.lastPhase
               ∨ jsStringOrNull p.message ≠ st.lastMessage)
             ∧ 600 ≤ now - st.lastWriteAt))
    ∧ (∀ n, (scanCompletionUpdate n).status = "completed"
         ∧ (scanCompletionUpdate n).progressPhase = "done"
         ∧ (scanCompletionUpdate n).progressPercent = some 100)
    ∧ (∀ msg, (scanFailureUpdate msg).status = "failed"
         ∧ (scanFailureUpdate msg).progressPhase = "failed") := by
  have hclamp : ∀ q : ℚ, 0 ≤ clampPercent q ∧ clampPercent q ≤ 100 := by
    intro q
    unfold clampPercent
    exact ⟨le_max_left 0 _, max_le (by norm_num) (min_le_left _ _)⟩
  refine ⟨?_, ?_, fun n => ⟨rfl, rfl, rfl⟩, fun msg => ⟨rfl, rfl⟩⟩
  · intro st now p st2 w h
    rw [updateProgress_eq] at h
    by_cases hC : ((some (clampPercent p.percent) ≠ st.lastPercent
        ∨ jsStringOrNull p.phase ≠ st.lastPhase
        ∨ jsStringOrNull p.message ≠ st.lastMessage)
      ∧ 600 ≤ now - st.lastWriteAt)
    · rw [if_pos hC] at h
      obtain ⟨h1, h2⟩ := Prod.mk.injEq .. ▸ h
      have hw := Option.some_injective _ h2
      rw [← h1, ← hw]
      exact ⟨rfl, (hclamp p.percent).1, (hclamp p.percent).2, rfl⟩
    · rw [if_neg hC] at h
      exact absurd (congrArg Prod.snd h) (by simp)
  · intro st now p
    rw [updateProgress_eq]
    by_cases hC : ((some (clampPercent p.percent) ≠ st.lastPercent
        ∨ jsStringOrNull p.phase ≠ st.lastPhase
        ∨ jsStringOrNull p.message ≠ st.lastMessage)
      ∧ 600 ≤ now - st.lastWriteAt)
    · rw [if_pos hC]
      simpa using hC
    · rw [if_neg hC]
      simpa using hC

/-- C10 counterexample: `fetchRepoFileIfExists` is not total over every
input — for the unsupported provider `gitlab` the provider check throws
(before the `try/catch`) instead of resolving to an `exists: false`
record. -/
theorem fetchRepoFile_throws_on_provider :
    fetchRepoFileIfExists "gitlab" emptyOkResponse id
      = .error "Unsupported git provider: gitlab" := by
  rfl

/-- C10 (amended): for the GitHub provider (the only one the scan engine
passes), `fetchRepoFileIfExists` is total: every hosting-API error,
including ones that are not "not found", resolves to a record with
`exists = false`, `content = null` and `sha = null` (the non-not-found case
additionally carrying the error), never a thrown exception; and in the
document-generation loop any fetch failure yields empty existing content.
Only an unsupported git provider throws, before the `try` block. -/
theorem fetchRepoFile_total_for_github
    (response : Except String ContentsResponse) (decode : String → String) :
    (∃ r, fetchRepoFileIfExists "github" response decode = .ok r)
    ∧ (∀ err, response = .error err →
        fetchRepoFileIfExists "github" response decode
          = .ok { exists_ := false, content := none, sha := none,
                  error := if jsIncludes "not found" (jsToLower err) then none else some err }
        ∧ existingMarkdownOf (fetchRepoFileIfExists "github" response decode) = "") := by
  have hprov : ¬(("github" : String) ≠ "" ∧ ("github" : String) ≠ "github") := by
    intro h; exact h.2 rfl
  constructor
  · cases response with
    | error err =>
      by_cases hnf : jsIncludes "not found" (jsToLower err) = true
      · exact ⟨{ exists_ := false, content := none, sha := none },
          by simp [fetchRepoFileIfExists, hprov, hnf]⟩
      · exact ⟨{ exists_ := false, content := none, sha := none, error := some err },
          by simp [fetchRepoFileIfExists, hprov, hnf]⟩
    | ok data =>
      cases hc : data.content with
      | none =>
        exact ⟨{ exists_ := false, content := none, sha := none },
          by simp [fetchRepoFileIfExists, hprov, hc]⟩
      | some c =>
        by_cases hce : c = ""
        · exact ⟨{ exists_ := false, content := none, sha := none },
            by simp [fetchRepoFileIfExists, hprov, hc, hce]⟩
        · exact ⟨{ exists_ := true, content := some (decode c), sha := jsStringOrNull data.sha },
            by simp [fetchRepoFileIfExists, hprov, hc, hce]⟩
  · intro err herr
    subst herr
    by_cases hnf : jsIncludes "not found" (jsToLower err) = true
    · constructor
      · simp [fetchRepoFileIfExists, hprov, hnf]
      · simp [fetchRepoFileIfExists, existingMarkdownOf, hprov, hnf]
    · constructor
      · simp [fetchRepoFileIfExists, hprov, hnf]
      · simp [fetchRepoFileIfExists, existingMarkdownOf, hprov, hnf]

end NexusDocs
